import Mathlib

/-!
Verification of the `derive(Builder)` code generator in
`src/builder/src/lib.rs` against its natural-language specification.

The development is a shallow embedding of the generator:

* Rust's syntactic entities (`syn::Type`, attributes, literals) become
  inductive types carrying exactly the structure the generator inspects.
* Each Rust function becomes a Lean function of the same name
  (`get_option_type` becomes `getOptionType`, and so on).  A Rust panic
  (`unwrap`, `expect`, `panic!`, `unimplemented!`) is modelled as
  `Except.error msg` carrying the panic message; a normal return is
  `Except.ok`.
* The token fragments the generator emits (`quote!` templates) become
  small symbolic fragment types (`InitFrag`, `SetterFrag`, `BuildFrag`),
  and the run-time behaviour of each emitted template is transcribed as a
  Lean function on the builder slot it manipulates (`setRequired`,
  `setOptional`, `pushElem`, `takeUnwrap`, `optionalRead`).
-/

set_option autoImplicit false

namespace DeriveBuilder

/-- A generic argument inside angle brackets, as the generator sees it:
either a type, a lifetime, or some other kind of argument
(`syn::GenericArgument`). -/
inductive GArgOf (τ : Type) where
  | tyArg (t : τ)
  | lifetimeArg
  | otherArg
  deriving Repr

/-- The arguments attached to a path segment (`syn::PathArguments`):
none, angle-bracketed, or parenthesized. -/
inductive PathArgsOf (τ : Type) where
  | noArgs
  | angle (args : List (GArgOf τ))
  | paren
  deriving Repr

/-- A Rust type as far as the generator inspects it (`syn::Type`): a path
type with a qualified-self flag and a list of segments, each a name with
its arguments, or any other type form. -/
inductive Ty where
  | path (qself : Bool) (segments : List (String × PathArgsOf Ty))
  | otherTy
  deriving Repr

/-- A literal inside an attribute value (`syn::Lit`). -/
inductive Lit where
  | str (s : String)
  | int (n : Int)
  | otherLit
  deriving Repr

/-- An attribute-value expression (`syn::Expr`): a literal or anything
else. -/
inductive Expr where
  | lit (l : Lit)
  | otherExpr
  deriving Repr

/-- The result of `parse_args_with(MetaNameValue::parse)` on the tokens of
a list-style attribute: a `key = value` pair whose key is a path, or an
unparsable token soup (on which the generator's `.expect` panics). -/
inductive ListArgs where
  | nameValue (keyPath : List String) (value : Expr)
  | unparsable
  deriving Repr

/-- The shape of one attribute's meta item (`syn::Meta`). -/
inductive AttrMeta where
  | pathMeta
  | listMeta (args : ListArgs)
  | nameValueMeta
  deriving Repr

/-- One attribute on a field: its path (`a.path()`, as a segment list so
that `get_ident` is "the list is a singleton") and its meta item. -/
structure Attr where
  path : List String
  meta : AttrMeta
  deriving Repr

/-- A diagnostic produced by `syn::Error::new_spanned(&a.meta, msg)`:
the anchor it is spanned to and its message text. -/
structure Diag where
  anchor : AttrMeta
  msg : String
  deriving Repr

/-- One named field of the input struct: name, declared type, attributes
(`syn::Field`, restricted to what the generator reads). -/
structure FieldDesc where
  name : String
  ty : Ty
  attrs : List Attr
  deriving Repr

/-- The message of the fixed diagnostic in `get_each_setter`.  The Rust
source builds it with `indoc!`, which strips the leading blank line and
the indentation and keeps the terminating newline, so the message is the
fixed text followed by one newline. -/
def eachErrMsg : String := "expected `builder(each = \"...\")`\n"

/-- The Rust panic message of `Option::unwrap` on `None`. -/
def unwrapMsg : String := "called `Option::unwrap()` on a `None` value"

/-- Transcription of `get_each_setter` (lib.rs lines 354-392).  Walks the
field's attributes; on the first `builder(...)` list attribute it parses
`key = value`: key `each` with a string-literal value yields the setter
name; a different single-identifier key yields the fixed diagnostic; a
non-string-literal value, or a key that is not a single identifier, falls
through to the remaining attributes.  An unparsable attribute body panics
(the `.expect`). -/
def getEachSetter : List Attr → Except String (Option String × Option Diag)
  | [] => .ok (none, none)
  | a :: rest =>
    if a.path = ["builder"] then
      match a.meta with
      | .listMeta .unparsable => .error "Able to parse each = name"
      | .listMeta (.nameValue keyPath value) =>
        match keyPath with
        | [key] =>
          if key = "each" then
            match value with
            | .lit (.str s) => .ok (some s, none)
            | _ => getEachSetter rest
          else .ok (none, some ⟨a.meta, eachErrMsg⟩)
        | _ => getEachSetter rest
      | _ => getEachSetter rest
    else getEachSetter rest

/-- Transcription of `get_option_type` (lib.rs lines 394-424).  Returns
the first angle-bracket argument of a non-qself, single-segment path
whose identifier is `Option`; panics (`expect`) if the angle brackets are
empty and (`unimplemented!`) if the first argument is not a type; yields
`none` in every other case. -/
def getOptionType (ty : Ty) : Except String (Option Ty) :=
  match ty with
  | .path qself segments =>
    if qself then .ok none
    else
      match segments with
      | [(ident, args)] =>
        if ident = "Option" then
          match args with
          | .angle [] => .error "args has a generic argument"
          | .angle (.tyArg t :: _) => .ok (some t)
          | .angle (_ :: _) => .error "not implemented"
          | _ => .ok none
        else .ok none
      | _ => .ok none
  | .otherTy => .ok none

/-- Transcription of `get_vec_type` (lib.rs lines 426-458).  Like
`getOptionType` for `Vec`, except that a single-segment path whose
identifier is not `Vec` hits `panic!("Did not have a vec!")`. -/
def getVecType (ty : Ty) : Except String (Option Ty) :=
  match ty with
  | .path qself segments =>
    if qself then .ok none
    else
      match segments with
      | [(ident, args)] =>
        if ident = "Vec" then
          match args with
          | .angle [] => .error "args has a generic argument"
          | .angle (.tyArg t :: _) => .ok (some t)
          | .angle (_ :: _) => .error "not implemented"
          | _ => .ok none
        else .error "Did not have a vec!"
      | _ => .ok none
  | .otherTy => .ok none

/-- The per-field record the generator computes (`struct AnnotatedField`,
lib.rs lines 14-37). -/
structure AnnotatedField where
  name : String
  ty : Ty
  is_optional : Bool
  one_by_one_setter : Option String
  inner_type : Option Ty
  parsed : Option Diag
  deriving Repr

/-- Transcription of `impl From<&Field> for AnnotatedField` (lib.rs lines
39-66): the option shape is probed first, then the `each` attribute; the
inner type is the `Option` argument if the type is option-shaped, else
the `Vec` argument when an `each` setter is present (`.unwrap()` panics
when `get_vec_type` returns nothing), else absent. -/
def annotatedFieldFrom (f : FieldDesc) : Except String AnnotatedField :=
  match getOptionType f.ty with
  | .error e => .error e
  | .ok optTyp =>
    match getEachSetter f.attrs with
    | .error e => .error e
    | .ok (setter, parsed) =>
      match optTyp with
      | some t => .ok ⟨f.name, f.ty, true, setter, some t, parsed⟩
      | none =>
        match setter with
        | some s =>
          match getVecType f.ty with
          | .error e => .error e
          | .ok (some t) => .ok ⟨f.name, f.ty, false, some s, some t, parsed⟩
          | .ok none => .error unwrapMsg
        | none => .ok ⟨f.name, f.ty, false, none, none, parsed⟩

/-- The initializer fragment a field contributes to `Type::builder()`
(lib.rs lines 117-128): either `name: Some(Vec::new())` or
`name: None`. -/
inductive InitFrag where
  | someEmptyVec
  | noneInit
  deriving Repr, DecidableEq

/-- Transcription of `get_builder_initializer`: the slot is pre-populated
with an empty vector exactly when a one-by-one setter name is present. -/
def getBuilderInitializer (af : AnnotatedField) : InitFrag :=
  if af.one_by_one_setter.isSome then .someEmptyVec else .noneInit

/-- One setter fragment emitted into the builder's impl block (lib.rs
lines 153-196): an element-appending setter, an optional-field setter
storing `Some(Some(value))`, a plain replacing setter storing
`Some(value)`, or a `compile_error!` diagnostic fragment.  Each setter
carries its function name, the field it writes, and its argument type. -/
inductive SetterFrag where
  | elemSetter (fnName : String) (field : String) (argTy : Ty)
  | optionalSetter (fnName : String) (field : String) (argTy : Ty)
  | requiredSetter (fnName : String) (field : String) (argTy : Ty)
  | diagFrag (d : Diag)
  deriving Repr

/-- Transcription of `get_builder_setter` (lib.rs lines 153-196).  A
stored diagnostic replaces the field's setters wholesale.  Otherwise an
element setter is emitted when a one-by-one name exists (its argument
type is the stored inner type, whose `unwrap` panics when absent), and a
whole-field setter under the field's own name is emitted unless the
one-by-one name coincides with the field name; that whole-field setter
takes the inner type for option-shaped fields and the declared type
otherwise. -/
def getBuilderSetter (af : AnnotatedField) : Except String (List SetterFrag) :=
  match af.parsed with
  | some d => .ok [.diagFrag d]
  | none =>
    match af.one_by_one_setter with
    | some s =>
      match af.inner_type with
      | some it =>
        if af.one_by_one_setter ≠ some af.name then
          if af.is_optional then
            .ok [.elemSetter s af.name it, .optionalSetter af.name af.name it]
          else
            .ok [.elemSetter s af.name it, .requiredSetter af.name af.name af.ty]
        else .ok [.elemSetter s af.name it]
      | none => .error unwrapMsg
    | none =>
      if af.is_optional then
        match af.inner_type with
        | some it => .ok [.optionalSetter af.name af.name it]
        | none => .error unwrapMsg
      else .ok [.requiredSetter af.name af.name af.ty]

/-- The per-field expression inside the generated `build()` (lib.rs lines
218-238): `if self.name.is_some() { self.name.take().unwrap() } else {
None }` for option-shaped fields, `self.name.take().unwrap()`
otherwise. -/
inductive BuildFrag where
  | optRead (field : String)
  | takeRead (field : String)
  deriving Repr, DecidableEq

/-- Transcription of `get_build_initializer`. -/
def getBuildInitializer (af : AnnotatedField) : BuildFrag :=
  if af.is_optional then .optRead af.name else .takeRead af.name

/-- All fragments one field contributes to the four output groupings: its
line in the builder struct declaration (`name: Option<ty>`, recorded as
the pair), its initializer, its setters, and its build-time read. -/
structure FieldFragments where
  declaration : String × Ty
  initializer : InitFrag
  setters : List SetterFrag
  buildRead : BuildFrag
  deriving Repr

/-- Processing of one field inside `derive` (lib.rs lines 321-351):
annotate it, then collect the four fragments from the annotation. -/
def processField (f : FieldDesc) : Except String FieldFragments :=
  match annotatedFieldFrom f with
  | .error e => .error e
  | .ok af =>
    match getBuilderSetter af with
    | .error e => .error e
    | .ok setters =>
      .ok ⟨(af.name, af.ty), getBuilderInitializer af, setters, getBuildInitializer af⟩

/-- Processing of every field in order, as the loops in `derive` do;
the first panic aborts the whole transformation. -/
def processAll : List FieldDesc → Except String (List FieldFragments)
  | [] => .ok []
  | f :: rest =>
    match processField f with
    | .error e => .error e
    | .ok fr =>
      match processAll rest with
      | .error e => .error e
      | .ok frs => .ok (fr :: frs)

/-- Transcription of the top level of `derive` (lib.rs lines 311-352):
the builder type's name is the target name with the `Builder` suffix, and
every named field is processed in order. -/
def deriveBuilder (structName : String) (fields : List FieldDesc) :
    Except String (String × List FieldFragments) :=
  match processAll fields with
  | .error e => .error e
  | .ok frags => .ok (structName ++ "Builder", frags)

/-- The diagnostics carried by a list of setter fragments. -/
def diagsIn (l : List SetterFrag) : List Diag :=
  l.filterMap fun fr =>
    match fr with
    | .diagFrag d => some d
    | _ => none

/-- All diagnostics in an emitted fragment list. -/
def diagsOf (frags : List FieldFragments) : List Diag :=
  frags.flatMap fun fr => diagsIn fr.setters

/-- The specification's construction Category of a field, read off the
generator's per-field record: option-shaped fields are Optional of the
stored inner type (mirroring the priority the `From` impl gives to the
option probe), otherwise a field with a one-by-one setter name is
Collection of the stored inner type, otherwise Required. -/
inductive Category where
  | Required : Category
  | Optional : Ty → Category
  | Collection : Ty → String → Category
  deriving Repr

/-- The Category of an annotated field. -/
def categoryOf (af : AnnotatedField) : Category :=
  if af.is_optional then Category.Optional (af.inner_type.getD af.ty)
  else
    match af.one_by_one_setter, af.inner_type with
    | some s, some t => Category.Collection t s
    | some s, none => Category.Collection af.ty s
    | none, _ => Category.Required

/-!
Run-time semantics of the emitted templates.  A builder slot is the
`Option`-wrapped storage declared by `get_builder_declaration`; an
`Except.error` models a Rust panic.  The state passing (each operation
returns the updated slot) embeds the `&mut self` receiver of the
generated methods.
-/

/-- The slot value denoted by an initializer fragment for a collection
slot of element type `α` (`Some(Vec::new())` or `None`). -/
def interpInitList (α : Type) : InitFrag → Option (List α)
  | .someEmptyVec => some []
  | .noneInit => none

/-- Behaviour of the emitted replacing setter
`self.name = Some(value)` (lib.rs lines 186-191). -/
def setRequired {α : Type} (v : α) (_slot : Option α) : Option α := some v

/-- Behaviour of the emitted optional-field setter
`self.name = Some(Some(value))` (lib.rs lines 178-183). -/
def setOptional {α : Type} (v : α) (_slot : Option (Option α)) : Option (Option α) :=
  some (some v)

/-- Behaviour of the emitted element setter
`self.name.as_mut().unwrap().push(value)` (lib.rs lines 167-171):
panics on an empty slot, otherwise appends. -/
def pushElem {α : Type} (v : α) (slot : Option (List α)) :
    Except String (Option (List α)) :=
  match slot with
  | none => .error unwrapMsg
  | some xs => .ok (some (xs ++ [v]))

/-- Behaviour of the build-time read `self.name.take().unwrap()` (lib.rs
lines 232-234): panics on an empty slot, otherwise moves the value out
and leaves the slot empty. -/
def takeUnwrap {α : Type} (slot : Option α) : Except String (α × Option α) :=
  match slot with
  | none => .error unwrapMsg
  | some v => .ok (v, none)

/-- Behaviour of the build-time read for option-shaped fields (lib.rs
lines 223-228): if the slot is set, `take().unwrap()` moves the inner
option out and empties the slot; otherwise the field value is `None` and
the slot is left as it was. -/
def optionalRead {α : Type} (slot : Option (Option α)) :
    Option α × Option (Option α) :=
  match slot with
  | some w => (w, none)
  | none => (none, none)

/-- Repeated calls of the emitted element setter, one per value, threaded
through the slot. -/
def runElemCalls {α : Type} : List α → Option (List α) → Except String (Option (List α))
  | [], slot => .ok slot
  | v :: rest, slot =>
    match pushElem v slot with
    | .error e => .error e
    | .ok s => runElemCalls rest s

/-- One `build()`-style read of a non-optional slot after a sequence of
element-setter calls. -/
def buildAfterElemCalls {α : Type} (vs : List α) (slot : Option (List α)) :
    Except String (List α × Option (List α)) :=
  match runElemCalls vs slot with
  | .error e => .error e
  | .ok s => takeUnwrap s

/-! Concrete fixture descriptors used by witnesses and counterexamples. -/

/-- The type `String`. -/
def tyString : Ty := .path false [("String", .noArgs)]

/-- The type `u8`. -/
def tyU8 : Ty := .path false [("u8", .noArgs)]

/-- The type `Vec<String>`. -/
def tyVecString : Ty := .path false [("Vec", .angle [.tyArg tyString])]

/-- The type `Option<u8>`. -/
def tyOptU8 : Ty := .path false [("Option", .angle [.tyArg tyU8])]

/-- The malformed but parseable type `Option<String, u8>`: a single
`Option` segment carrying two angle-bracket type arguments. -/
def tyOptTwo : Ty := .path false [("Option", .angle [.tyArg tyString, .tyArg tyU8])]

/-- The attribute `#[builder(each = "s")]`. -/
def attrEach (s : String) : Attr :=
  ⟨["builder"], .listMeta (.nameValue ["each"] (.lit (.str s)))⟩

/-- The attribute `#[builder(each = 5)]`, a non-string-literal value. -/
def attrEachInt : Attr :=
  ⟨["builder"], .listMeta (.nameValue ["each"] (.lit (.int 5)))⟩

/-- A plain required field `executable: String`. -/
def fdExec : FieldDesc := ⟨"executable", tyString, []⟩

/-- A collection field `args: Vec<String>` with `#[builder(each = "arg")]`. -/
def fdArg : FieldDesc := ⟨"args", tyVecString, [attrEach "arg"]⟩

/-- A collection field whose element-setter name equals the field name:
`env: Vec<String>` with `#[builder(each = "env")]`. -/
def fdEnvSame : FieldDesc := ⟨"env", tyVecString, [attrEach "env"]⟩

/-- An optional field `current_dir: Option<u8>`. -/
def fdCurrentDir : FieldDesc := ⟨"current_dir", tyOptU8, []⟩

/-- A field with an `each` attribute but a non-`Vec` declared type. -/
def fdStrEach : FieldDesc := ⟨"args", tyString, [attrEach "arg"]⟩

/-- An option-typed field that also carries an `each` attribute. -/
def fdOptEach : FieldDesc := ⟨"maybe", tyOptU8, [attrEach "m"]⟩

/-- A field whose type is `Option<String, u8>` and has no attributes. -/
def fdOptTwo : FieldDesc := ⟨"weird", tyOptTwo, []⟩

/-- A field `args: Vec<String>` with `#[builder(each = 5)]`. -/
def fdEachInt : FieldDesc := ⟨"args", tyVecString, [attrEachInt]⟩

/-- The annotation the generator computes for `fdExec`. -/
def afExec : AnnotatedField := ⟨"executable", tyString, false, none, none, none⟩

/-- The annotation the generator computes for `fdArg`. -/
def afArg : AnnotatedField := ⟨"args", tyVecString, false, some "arg", some tyString, none⟩

/-- The annotation the generator computes for `fdEnvSame`. -/
def afEnvSame : AnnotatedField := ⟨"env", tyVecString, false, some "env", some tyString, none⟩

/-- The annotation the generator computes for `fdCurrentDir`. -/
def afCurrentDir : AnnotatedField := ⟨"current_dir", tyOptU8, true, none, some tyU8, none⟩

/-- The annotation the generator computes for `fdOptEach`. -/
def afOptEach : AnnotatedField := ⟨"maybe", tyOptU8, true, some "m", some tyU8, none⟩

/-- The annotation the generator computes for `fdOptTwo`. -/
def afOptTwo : AnnotatedField := ⟨"weird", tyOptTwo, true, none, some tyString, none⟩


/-!
Spec-side classifier rules.  `claimRule1` and `claimCategoryRule` follow
the claim's words exactly ("a single outer identifier literally named
Option with exactly one angle-bracket type argument"); `amendedRule1`,
`amendedVecInner` and `amendedCategoryRule` state the relaxation the code
actually implements (only the first angle-bracket argument is examined).
They exist to be compared with the code-derived classifier.
-/

/-- The claim's rule 1, as worded: a non-qself single-segment path named
`Option` with exactly one angle-bracket argument, that argument a type. -/
def claimRule1 (ty : Ty) : Option Ty :=
  match ty with
  | .path false [("Option", .angle [.tyArg t])] => some t
  | _ => none

/-- The claim's `Vec` extraction, as worded: a single-segment `Vec` path
with exactly one angle-bracket type argument. -/
def claimVecInner (ty : Ty) : Option Ty :=
  match ty with
  | .path false [("Vec", .angle [.tyArg t])] => some t
  | _ => none

/-- The claim's full classifier rule: Optional by rule 1, else Collection
when an element-setter name was produced (with `none` denoting the
claim's TypeShapeError), else Required. -/
def claimCategoryRule (ty : Ty) (setter : Option String) : Option Category :=
  match claimRule1 ty with
  | some t => some (Category.Optional t)
  | none =>
    match setter with
    | some s => (claimVecInner ty).map fun t => Category.Collection t s
    | none => some Category.Required

/-- Rule 1 as the code implements it: the argument-count check is
relaxed to "the first angle-bracket argument is a type". -/
def amendedRule1 (ty : Ty) : Option Ty :=
  match ty with
  | .path false [("Option", .angle (.tyArg t :: _))] => some t
  | _ => none

/-- The `Vec` extraction as the code implements it: the first
angle-bracket argument of a single-segment `Vec` path. -/
def amendedVecInner (ty : Ty) : Option Ty :=
  match ty with
  | .path false [("Vec", .angle (.tyArg t :: _))] => some t
  | _ => none

/-- The amended classifier rule. -/
def amendedCategoryRule (ty : Ty) (setter : Option String) : Option Category :=
  match amendedRule1 ty with
  | some t => some (Category.Optional t)
  | none =>
    match setter with
    | some s => (amendedVecInner ty).map fun t => Category.Collection t s
    | none => some Category.Required

/-!
Helper lemmas relating the transcription of the generator's helpers to
the spec-side rules, and inversion principles for the annotation step.
-/

/-- When `getOptionType` returns normally, its result is exactly the
relaxed rule-1 extraction. -/
theorem optionTypeAmended (ty : Ty) (o : Option Ty)
    (h : getOptionType ty = Except.ok o) : amendedRule1 ty = o := by
  unfold getOptionType at h
  unfold amendedRule1
  repeat' (split at h)
  all_goals first
    | exact Except.noConfusion h
    | (split <;> simp_all)

/-- When `getVecType` returns normally, its result is exactly the relaxed
`Vec` extraction. -/
theorem vecTypeAmended (ty : Ty) (o : Option Ty)
    (h : getVecType ty = Except.ok o) : amendedVecInner ty = o := by
  unfold getVecType at h
  unfold amendedVecInner
  repeat' (split at h)
  all_goals first
    | exact Except.noConfusion h
    | (split <;> simp_all)

/-- The attribute scan never produces a setter name and a diagnostic
together. -/
theorem eachSetterExclusive (attrs : List Attr) :
    ∀ (s : Option String) (p : Option Diag),
      getEachSetter attrs = Except.ok (s, p) → s = none ∨ p = none := by
  induction attrs with
  | nil =>
    intro s p h
    simp [getEachSetter] at h
    simp [h.1]
  | cons a rest ih =>
    intro s p h
    unfold getEachSetter at h
    repeat' (split at h)
    all_goals first
      | exact Except.noConfusion h
      | simp_all

/-- Inversion of the annotation step: a successful annotation records the
option probe, the attribute scan, and the inner type according to which
branch of the `From` impl was taken. -/
theorem annotatedFieldFromInv (f : FieldDesc) (af : AnnotatedField)
    (h : annotatedFieldFrom f = Except.ok af) :
    ∃ oty setter parsed,
      getOptionType f.ty = Except.ok oty ∧
      getEachSetter f.attrs = Except.ok (setter, parsed) ∧
      af.name = f.name ∧ af.ty = f.ty ∧ af.is_optional = oty.isSome ∧
      af.one_by_one_setter = setter ∧ af.parsed = parsed ∧
      ((∃ t, oty = some t ∧ af.inner_type = some t) ∨
       (oty = none ∧ (∃ s t, setter = some s ∧
          getVecType f.ty = Except.ok (some t) ∧ af.inner_type = some t)) ∨
       (oty = none ∧ setter = none ∧ af.inner_type = none)) := by
  unfold annotatedFieldFrom at h
  cases hopt : getOptionType f.ty with
  | error e => rw [hopt] at h; exact Except.noConfusion h
  | ok oty =>
    rw [hopt] at h
    cases heach : getEachSetter f.attrs with
    | error e => rw [heach] at h; exact Except.noConfusion h
    | ok sp =>
      obtain ⟨setter, parsed⟩ := sp
      rw [heach] at h
      cases oty with
      | some t =>
        simp at h
        subst h
        exact ⟨some t, setter, parsed, rfl, rfl, rfl, rfl, rfl, rfl, rfl,
               Or.inl ⟨t, rfl, rfl⟩⟩
      | none =>
        cases setter with
        | some s =>
          cases hvec : getVecType f.ty with
          | error e => rw [hvec] at h; exact Except.noConfusion h
          | ok vt =>
            rw [hvec] at h
            cases vt with
            | some t =>
              simp at h
              subst h
              exact ⟨none, some s, parsed, rfl, rfl, rfl, rfl, rfl, rfl, rfl,
                     Or.inr (Or.inl ⟨rfl, s, t, rfl, rfl, rfl⟩)⟩
            | none => exact Except.noConfusion h
        | none =>
          simp at h
          subst h
          exact ⟨none, none, parsed, rfl, rfl, rfl, rfl, rfl, rfl, rfl,
                 Or.inr (Or.inr ⟨rfl, rfl, rfl⟩)⟩

/-- A field classified Collection has the collection branch's record
shape: not option-shaped, setter name and inner type stored, no pending
diagnostic, and the inner type is the `Vec` argument. -/
theorem categoryCollectionInv (f : FieldDesc) (af : AnnotatedField) (t : Ty) (s : String)
    (hf : annotatedFieldFrom f = Except.ok af)
    (hc : categoryOf af = Category.Collection t s) :
    af.is_optional = false ∧ af.one_by_one_setter = some s ∧
      af.inner_type = some t ∧ af.parsed = none ∧
      getOptionType f.ty = Except.ok none ∧ getVecType f.ty = Except.ok (some t) := by
  obtain ⟨oty, setter, parsed, hopt, heach, -, -, hio, hset, hpar, hbr⟩ :=
    annotatedFieldFromInv f af hf
  rcases hbr with ⟨t', ho, hi⟩ | ⟨ho, s', t', hs, hv, hi⟩ | ⟨ho, hs, hi⟩
  · rw [ho] at hio
    simp [categoryOf, hio] at hc
  · rw [ho] at hio hopt
    simp at hio
    rw [hs] at hset
    simp [categoryOf, hio, hset, hi] at hc
    obtain ⟨rfl, rfl⟩ := hc
    refine ⟨hio, hset, hi, ?_, hopt, hv⟩
    rcases eachSetterExclusive f.attrs setter parsed heach with hnone | hnone
    · rw [hnone] at hs; exact absurd hs (by simp)
    · rw [hpar, hnone]
  · rw [ho] at hio hopt
    simp at hio
    rw [hs] at hset
    simp [categoryOf, hio, hset] at hc

/-- A field classified Optional is option-shaped and stores the `Option`
argument as its inner type. -/
theorem categoryOptionalInv (f : FieldDesc) (af : AnnotatedField) (t : Ty)
    (hf : annotatedFieldFrom f = Except.ok af)
    (hc : categoryOf af = Category.Optional t) :
    af.is_optional = true ∧ af.inner_type = some t ∧
      getOptionType f.ty = Except.ok (some t) := by
  obtain ⟨oty, setter, parsed, hopt, heach, -, -, hio, hset, hpar, hbr⟩ :=
    annotatedFieldFromInv f af hf
  rcases hbr with ⟨t', ho, hi⟩ | ⟨ho, s', t', hs, hv, hi⟩ | ⟨ho, hs, hi⟩
  · rw [ho] at hio hopt
    simp [categoryOf, hio, hi] at hc
    subst hc
    exact ⟨by simp [hio], hi, hopt⟩
  · rw [ho] at hio
    simp at hio
    rw [hs] at hset
    simp [categoryOf, hio, hset, hi] at hc
  · rw [ho] at hio
    simp at hio
    rw [hs] at hset
    simp [categoryOf, hio, hset] at hc

/-- A field classified Required has the bare branch's record shape. -/
theorem categoryRequiredInv (f : FieldDesc) (af : AnnotatedField)
    (hf : annotatedFieldFrom f = Except.ok af)
    (hc : categoryOf af = Category.Required) :
    af.is_optional = false ∧ af.one_by_one_setter = none ∧
      af.inner_type = none ∧ getOptionType f.ty = Except.ok none := by
  obtain ⟨oty, setter, parsed, hopt, heach, -, -, hio, hset, hpar, hbr⟩ :=
    annotatedFieldFromInv f af hf
  rcases hbr with ⟨t', ho, hi⟩ | ⟨ho, s', t', hs, hv, hi⟩ | ⟨ho, hs, hi⟩
  · rw [ho] at hio
    simp [categoryOf, hio] at hc
  · rw [ho] at hio
    simp at hio
    rw [hs] at hset
    simp [categoryOf, hio, hset, hi] at hc
  · rw [ho] at hio hopt
    rw [hs] at hset
    exact ⟨by simp [hio], hset, hi, hopt⟩

/-- Appending element-setter calls onto a populated slot appends the
values in call order. -/
theorem runElemCallsAppend {α : Type} (vs : List α) :
    ∀ acc : List α, runElemCalls vs (some acc) = Except.ok (some (acc ++ vs)) := by
  induction vs with
  | nil => intro acc; simp [runElemCalls]
  | cons v rest ih =>
    intro acc
    simp [runElemCalls, pushElem, ih]

/-- `processAll` distributes over list append. -/
theorem processAllAppend (xs ys : List FieldDesc) (xf yf : List FieldFragments)
    (hx : processAll xs = Except.ok xf) (hy : processAll ys = Except.ok yf) :
    processAll (xs ++ ys) = Except.ok (xf ++ yf) := by
  induction xs generalizing xf with
  | nil =>
    simp [processAll] at hx
    subst hx
    simpa using hy
  | cons a rest ih =>
    unfold processAll at hx
    cases hp : processField a with
    | error e => rw [hp] at hx; exact Except.noConfusion hx
    | ok fr =>
      rw [hp] at hx
      cases hr : processAll rest with
      | error e => rw [hr] at hx; exact Except.noConfusion hx
      | ok frs =>
        rw [hr] at hx
        injection hx with hx
        subst hx
        simp only [List.cons_append]
        unfold processAll
        rw [hp, ih frs hr]

/-- The diagnostics among a field's emitted setters are exactly the
field's pending diagnostic, when there is one. -/
theorem diagsInGetBuilderSetter (af : AnnotatedField) (l : List SetterFrag)
    (h : getBuilderSetter af = Except.ok l) :
    diagsIn l = (match af.parsed with | some d => [d] | none => []) := by
  unfold getBuilderSetter at h
  repeat' (split at h)
  all_goals first
    | exact Except.noConfusion h
    | (injection h with h
       subst h
       simp_all [diagsIn])

/-- An attribute-free field contributes no diagnostics. -/
theorem processFieldNoAttrsNoDiag (f : FieldDesc) (fr : FieldFragments)
    (hattrs : f.attrs = []) (h : processField f = Except.ok fr) :
    diagsIn fr.setters = [] := by
  unfold processField at h
  cases haf : annotatedFieldFrom f with
  | error e => rw [haf] at h; exact Except.noConfusion h
  | ok af =>
    rw [haf] at h
    dsimp only at h
    cases hs : getBuilderSetter af with
    | error e => rw [hs] at h; exact Except.noConfusion h
    | ok l =>
      rw [hs] at h
      dsimp only at h
      injection h with h
      subst h
      obtain ⟨oty, setter, parsed, hopt, heach, -, -, -, -, hpar, -⟩ :=
        annotatedFieldFromInv f af haf
      rw [hattrs] at heach
      simp [getEachSetter] at heach
      rw [diagsInGetBuilderSetter af l hs, hpar, ← heach.2]

/-- A list of attribute-free fields contributes no diagnostics. -/
theorem processAllNoAttrsNoDiags (xs : List FieldDesc) (xf : List FieldFragments)
    (hattrs : ∀ g ∈ xs, g.attrs = []) (h : processAll xs = Except.ok xf) :
    diagsOf xf = [] := by
  induction xs generalizing xf with
  | nil =>
    simp [processAll] at h
    subst h
    simp [diagsOf]
  | cons a rest ih =>
    unfold processAll at h
    cases hp : processField a with
    | error e => rw [hp] at h; exact Except.noConfusion h
    | ok fr =>
      rw [hp] at h
      cases hr : processAll rest with
      | error e => rw [hr] at h; exact Except.noConfusion h
      | ok frs =>
        rw [hr] at h
        injection h with h
        subst h
        have h1 := processFieldNoAttrsNoDiag a fr (hattrs a (by simp)) hp
        have h2 := ih frs (fun g hg => hattrs g (by simp [hg])) hr
        simp [diagsOf] at h2 ⊢
        exact ⟨h1, h2⟩

/-!
Claim C1.  The claim: `build()` before a Required field's setter yields a
recoverable, inspectable validation failure naming the field, never a
fatal fault.  The code disproves it: the generated read is
`self.name.take().unwrap()`, which panics on the empty slot; the emitted
`build()` has no failure channel carrying a field name at all.
-/

/-- Claim C1, counterexample: for the fresh Required field `executable:
String`, the builder slot is initialized `None` and the generated build
read panics (the unwrap panic, modelled `Except.error unwrapMsg`) rather
than returning a tagged failure value naming the field. -/
theorem c1Cex :
    annotatedFieldFrom fdExec = Except.ok afExec ∧
    categoryOf afExec = Category.Required ∧
    getBuilderInitializer afExec = InitFrag.noneInit ∧
    getBuildInitializer afExec = BuildFrag.takeRead "executable" ∧
    takeUnwrap (none : Option String) = Except.error unwrapMsg :=
  ⟨rfl, rfl, rfl, rfl, rfl⟩

/-- Claim C1, amended: `build()` invoked before a Required field's setter
panics (a fatal unwrap fault naming no field) rather than returning a
failure value; after calling the setter with `v`, `build()` succeeds and
the built field equals `v`; Collection fields never trigger the fault
because their slots are pre-populated with an empty vector. -/
theorem c1Amended (f : FieldDesc) (af : AnnotatedField) (α : Type) (v : α)
    (hf : annotatedFieldFrom f = Except.ok af)
    (hreq : categoryOf af = Category.Required)
    (hnodiag : af.parsed = none) :
    getBuilderInitializer af = InitFrag.noneInit ∧
    takeUnwrap (none : Option α) = Except.error unwrapMsg ∧
    getBuilderSetter af = Except.ok [SetterFrag.requiredSetter af.name af.name af.ty] ∧
    takeUnwrap (setRequired v (none : Option α)) = Except.ok (v, none) ∧
    (∀ (g : FieldDesc) (ag : AnnotatedField) (t : Ty) (s : String),
      annotatedFieldFrom g = Except.ok ag → categoryOf ag = Category.Collection t s →
        getBuilderInitializer ag = InitFrag.someEmptyVec ∧
        takeUnwrap (interpInitList α (getBuilderInitializer ag)) =
          Except.ok (([] : List α), none)) := by
  obtain ⟨hio, hset, hin, hopt⟩ := categoryRequiredInv f af hf hreq
  refine ⟨by simp [getBuilderInitializer, hset], rfl, ?_, rfl, ?_⟩
  · simp [getBuilderSetter, hnodiag, hset, hio]
  · intro g ag t s hg hcg
    obtain ⟨-, hsetg, -, -, -, -⟩ := categoryCollectionInv g ag t s hg hcg
    have hi : getBuilderInitializer ag = InitFrag.someEmptyVec := by
      simp [getBuilderInitializer, hsetg]
    exact ⟨hi, by rw [hi]; rfl⟩

/-- Claim C1, witness: the amended theorem applied to the concrete field
`executable: String` at value `7`. -/
theorem c1Witness :
    annotatedFieldFrom fdExec = Except.ok afExec ∧
    categoryOf afExec = Category.Required ∧
    takeUnwrap (setRequired 7 (none : Option Nat)) = Except.ok (7, none) :=
  ⟨rfl, rfl, (c1Amended fdExec afExec Nat 7 rfl rfl rfl).2.2.2.1⟩

/-!
Claim C2.  The claim: an `each`-attributed field whose declared type is
not a single-argument `Vec` surfaces a TypeShapeError diagnostic
fragment, never an unconditional abort.  The code disproves it: the
annotation step panics (`panic!("Did not have a vec!")` or the `unwrap`
in the `From` impl), aborting the whole transformation.
-/

/-- Claim C2, counterexample: the field `args: String` with
`#[builder(each = "arg")]` makes the annotation step panic, and the whole
transformation aborts with that panic — no diagnostic fragment and no
fragments for the unaffected field `executable` are returned. -/
theorem c2Cex :
    annotatedFieldFrom fdStrEach = Except.error "Did not have a vec!" ∧
    deriveBuilder "Command" [fdExec, fdStrEach] =
      Except.error "Did not have a vec!" :=
  ⟨rfl, rfl⟩

/-- Claim C2, amended: a field carrying an `each` attribute whose
declared type is not option-shaped and is not a `Vec` with a first
angle-bracket type argument makes the transformation panic (an
unconditional abort) during annotation; no diagnostic fragment is
surfaced. -/
theorem c2Amended (f : FieldDesc) (s : String)
    (hopt : getOptionType f.ty = Except.ok none)
    (heach : getEachSetter f.attrs = Except.ok (some s, none))
    (hvec : amendedVecInner f.ty = none) :
    ∃ e, annotatedFieldFrom f = Except.error e := by
  unfold annotatedFieldFrom
  rw [hopt, heach]
  dsimp only
  cases hv : getVecType f.ty with
  | error e => exact ⟨e, rfl⟩
  | ok vt =>
    cases vt with
    | some t =>
      have := vecTypeAmended f.ty (some t) hv
      rw [hvec] at this
      exact absurd this (by simp)
    | none => exact ⟨unwrapMsg, rfl⟩

/-- Claim C2, witness: the amended theorem applied to the concrete field
`args: String` with `#[builder(each = "arg")]`. -/
theorem c2Witness :
    getOptionType fdStrEach.ty = Except.ok none ∧
    getEachSetter fdStrEach.attrs = Except.ok (some "arg", none) ∧
    (∃ e, annotatedFieldFrom fdStrEach = Except.error e) :=
  ⟨rfl, rfl, c2Amended fdStrEach "arg" rfl rfl rfl⟩

/-!
Claim C3.  An unrecognized key under `builder(...)` produces exactly one
diagnostic with the fixed text (the `indoc!` string, i.e. the text
`expected \x60builder(each = "...")\x60` followed by the newline the
macro keeps), anchored at the offending attribute's meta item, while all
other fields are still classified and emitted.  Confirmed.
-/

/-- Claim C3: placing a field with a misspelled-key `builder` attribute
between any attribute-free fields, the transformation succeeds, emits the
normal fragments for every other field, and carries exactly one
diagnostic — the fixed message, anchored at the offending attribute. -/
theorem c3UnrecognizedKey (sName nm key : String) (v : Expr) (ty : Ty) (oty : Option Ty)
    (pre post : List FieldDesc) (preF postF : List FieldFragments)
    (hkey : key ≠ "each")
    (hty : getOptionType ty = Except.ok oty)
    (hpre0 : ∀ g ∈ pre, g.attrs = []) (hpost0 : ∀ g ∈ post, g.attrs = [])
    (hpre : processAll pre = Except.ok preF)
    (hpost : processAll post = Except.ok postF) :
    ∃ badF,
      deriveBuilder sName
          (pre ++ ⟨nm, ty, [⟨["builder"], .listMeta (.nameValue [key] v)⟩]⟩ :: post) =
        Except.ok (sName ++ "Builder", preF ++ badF :: postF) ∧
      badF.setters =
        [SetterFrag.diagFrag ⟨.listMeta (.nameValue [key] v), eachErrMsg⟩] ∧
      diagsOf (preF ++ badF :: postF) =
        [⟨.listMeta (.nameValue [key] v), eachErrMsg⟩] := by
  have heach : getEachSetter [⟨["builder"], .listMeta (.nameValue [key] v)⟩] =
      Except.ok (none, some ⟨.listMeta (.nameValue [key] v), eachErrMsg⟩) := by
    simp [getEachSetter, hkey]
  have hbad : ∃ badF,
      processField ⟨nm, ty, [⟨["builder"], .listMeta (.nameValue [key] v)⟩]⟩ =
        Except.ok badF ∧
      badF.setters =
        [SetterFrag.diagFrag ⟨.listMeta (.nameValue [key] v), eachErrMsg⟩] := by
    unfold processField annotatedFieldFrom
    rw [hty, heach]
    dsimp only
    cases oty with
    | some t => exact ⟨_, rfl, rfl⟩
    | none => exact ⟨_, rfl, rfl⟩
  obtain ⟨badF, hbadF, hbadSetters⟩ := hbad
  refine ⟨badF, ?_, hbadSetters, ?_⟩
  · have hmid : processAll
        (⟨nm, ty, [⟨["builder"], .listMeta (.nameValue [key] v)⟩]⟩ :: post) =
        Except.ok (badF :: postF) := by
      unfold processAll
      rw [hbadF, hpost]
    have := processAllAppend pre _ preF (badF :: postF) hpre hmid
    unfold deriveBuilder
    rw [this]
  · have h1 := processAllNoAttrsNoDiags pre preF hpre0 hpre
    have h2 := processAllNoAttrsNoDiags post postF hpost0 hpost
    have hsplit : diagsOf (preF ++ badF :: postF) =
        diagsOf preF ++ (diagsIn badF.setters ++ diagsOf postF) := by
      simp [diagsOf]
    rw [hsplit, h1, h2, hbadSetters]
    simp [diagsIn]

/-- Claim C3, witness: the theorem applied to the struct
`Command { executable: String, args: Vec<String> #[builder(oops = "x")],
env: Vec<String> }` (with `env` attribute-free). -/
theorem c3Witness :
    (∀ g ∈ [fdExec], g.attrs = []) ∧
    processAll [fdExec] =
      Except.ok [⟨("executable", tyString), InitFrag.noneInit,
        [SetterFrag.requiredSetter "executable" "executable" tyString],
        BuildFrag.takeRead "executable"⟩] ∧
    (∃ badF,
      deriveBuilder "Command"
          ([fdExec] ++ ⟨"args", tyVecString,
            [⟨["builder"], .listMeta (.nameValue ["oops"] (.lit (.str "x")))⟩]⟩ :: []) =
        Except.ok ("Command" ++ "Builder",
          [⟨("executable", tyString), InitFrag.noneInit,
            [SetterFrag.requiredSetter "executable" "executable" tyString],
            BuildFrag.takeRead "executable"⟩] ++ badF :: []) ∧
      badF.setters =
        [SetterFrag.diagFrag ⟨.listMeta (.nameValue ["oops"] (.lit (.str "x"))),
          eachErrMsg⟩] ∧
      diagsOf ([⟨("executable", tyString), InitFrag.noneInit,
          [SetterFrag.requiredSetter "executable" "executable" tyString],
          BuildFrag.takeRead "executable"⟩] ++ badF :: []) =
        [⟨.listMeta (.nameValue ["oops"] (.lit (.str "x"))), eachErrMsg⟩]) :=
  ⟨by simp [fdExec], rfl,
    c3UnrecognizedKey "Command" "args" "oops" (.lit (.str "x")) tyVecString none
      [fdExec] [] _ [] (by simp) rfl (by simp [fdExec]) (by simp) rfl rfl⟩

/-!
Claim C4.  The claim: a recognized `each` key bound to a non-string-
literal value is reported as an AttributeSyntaxError diagnostic.  The
code disproves it: `get_each_setter` falls through the literal checks and
continues the attribute loop, so the malformed attribute is silently
ignored and the field is processed as if unattributed.
-/

/-- Claim C4, counterexample: for `args: Vec<String>` with
`#[builder(each = 5)]`, the attribute scan yields neither a setter name
nor a diagnostic, and the field is emitted as a plain Required field with
no diagnostic fragment anywhere. -/
theorem c4Cex :
    getEachSetter [attrEachInt] = Except.ok (none, none) ∧
    processField fdEachInt = Except.ok ⟨("args", tyVecString), InitFrag.noneInit,
      [SetterFrag.requiredSetter "args" "args" tyVecString],
      BuildFrag.takeRead "args"⟩ :=
  ⟨rfl, rfl⟩

/-- Claim C4, amended: an `each` key bound to a non-string-literal value
is silently ignored — the attribute contributes neither a setter name nor
a diagnostic, and scanning continues with the remaining attributes
exactly as if the malformed attribute were absent. -/
theorem c4Amended (v : Expr) (rest : List Attr)
    (h : ∀ s, v ≠ Expr.lit (Lit.str s)) :
    getEachSetter (⟨["builder"], .listMeta (.nameValue ["each"] v)⟩ :: rest) =
      getEachSetter rest := by
  cases v with
  | lit l =>
    cases l with
    | str s => exact absurd rfl (h s)
    | int n => simp [getEachSetter]
    | otherLit => simp [getEachSetter]
  | otherExpr => simp [getEachSetter]

/-- Claim C4, witness: the amended theorem applied to
`#[builder(each = 5)]` with no further attributes. -/
theorem c4Witness :
    (∀ s, Expr.lit (Lit.int 5) ≠ Expr.lit (Lit.str s)) ∧
    getEachSetter [attrEachInt] = getEachSetter [] :=
  ⟨fun s => by simp, c4Amended (Expr.lit (Lit.int 5)) [] (fun s => by simp)⟩

/-!
Claim C5.  The claim states the classifier rule with "exactly one
angle-bracket type argument" for the `Option` match and Required as the
fallback.  The code disproves the exactness: `get_option_type` reads only
the first angle-bracket argument, so `Option<String, u8>` is classified
`Optional(String)` where the claim's rule classifies it Required.  The
purely syntactic outer-identifier matching (multi-segment `Option` paths
fall to Required) is as claimed.
-/

/-- Claim C5, counterexample: the field `weird: Option<String, u8>` with
no attributes is classified `Optional(String)` by the code, while the
claim's rule (exactly one angle-bracket argument, otherwise Required)
classifies it Required. -/
theorem c5Cex :
    annotatedFieldFrom fdOptTwo = Except.ok afOptTwo ∧
    getEachSetter fdOptTwo.attrs = Except.ok (none, none) ∧
    categoryOf afOptTwo = Category.Optional tyString ∧
    claimCategoryRule fdOptTwo.ty none = some Category.Required ∧
    Category.Optional tyString ≠ Category.Required :=
  ⟨rfl, rfl, rfl, rfl, fun hcon => Category.noConfusion hcon⟩

/-- Claim C5, amended: the classifier is the claimed rule with the
argument-count check relaxed — a single-segment `Option` path whose first
angle-bracket argument is a type is Optional of that argument; otherwise
a field with an element-setter name is Collection of the first type
argument of a single-segment `Vec` path; otherwise Required.  In
particular matching stays purely syntactic on the outermost identifier:
a multi-segment path such as `std::option::Option<T>` falls to
Required. -/
theorem c5Amended (f : FieldDesc) (af : AnnotatedField)
    (hf : annotatedFieldFrom f = Except.ok af) :
    amendedCategoryRule f.ty af.one_by_one_setter = some (categoryOf af) := by
  obtain ⟨oty, setter, parsed, hopt, heach, -, -, hio, hset, hpar, hbr⟩ :=
    annotatedFieldFromInv f af hf
  have hr1 := optionTypeAmended f.ty oty hopt
  rcases hbr with ⟨t, ho, hi⟩ | ⟨ho, s, t, hs, hv, hi⟩ | ⟨ho, hs, hi⟩
  · rw [ho] at hio hr1
    simp [amendedCategoryRule, hr1, categoryOf, hio, hi, hset]
  · rw [ho] at hio hr1
    simp at hio
    rw [hs] at hset
    have hv2 := vecTypeAmended f.ty (some t) hv
    simp [amendedCategoryRule, hr1, categoryOf, hio, hset, hi, hv2]
  · rw [ho] at hio hr1
    simp at hio
    rw [hs] at hset
    simp [amendedCategoryRule, hr1, categoryOf, hio, hset]

/-- Claim C5, witness: the amended rule applied to the concrete fields
`weird: Option<String, u8>` and `args: Vec<String>` with
`#[builder(each = "arg")]`. -/
theorem c5Witness :
    annotatedFieldFrom fdOptTwo = Except.ok afOptTwo ∧
    amendedCategoryRule fdOptTwo.ty afOptTwo.one_by_one_setter =
      some (categoryOf afOptTwo) ∧
    amendedCategoryRule fdArg.ty afArg.one_by_one_setter =
      some (categoryOf afArg) :=
  ⟨rfl, c5Amended fdOptTwo afOptTwo rfl, c5Amended fdArg afArg rfl⟩

/-!
Claim C6.  The claim: Collection slots start pre-populated, Required and
Optional slots start empty.  The code keys the initializer on the mere
presence of the element-setter name, not on the Category, so an
option-shaped field that also carries an `each` attribute — which the
classifier makes Optional — starts pre-populated, disproving the
"Optional slots start empty" half.
-/

/-- Claim C6, counterexample: `maybe: Option<u8>` with
`#[builder(each = "m")]` is classified Optional yet its slot is
initialized `Some(Vec::new())`, not `None`. -/
theorem c6Cex :
    annotatedFieldFrom fdOptEach = Except.ok afOptEach ∧
    categoryOf afOptEach = Category.Optional tyU8 ∧
    getBuilderInitializer afOptEach = InitFrag.someEmptyVec ∧
    getBuilderInitializer afOptEach ≠ InitFrag.noneInit :=
  ⟨rfl, rfl, rfl, by decide⟩

/-- Claim C6, amended: Collection slots start pre-populated with an empty
vector and Required slots start empty; an Optional slot starts empty
exactly when the field carries no element-setter name (the initializer
keys on that name's presence, not on the Category).  Consequently
`build()` succeeds with an empty collection for a Collection field whose
element setter is never called. -/
theorem c6Amended (f : FieldDesc) (af : AnnotatedField)
    (hf : annotatedFieldFrom f = Except.ok af) :
    (∀ t s, categoryOf af = Category.Collection t s →
       getBuilderInitializer af = InitFrag.someEmptyVec) ∧
    (categoryOf af = Category.Required →
       getBuilderInitializer af = InitFrag.noneInit) ∧
    (∀ t, categoryOf af = Category.Optional t →
       getBuilderInitializer af =
         (if af.one_by_one_setter.isSome then InitFrag.someEmptyVec
          else InitFrag.noneInit)) ∧
    (∀ (α : Type) (t : Ty) (s : String), categoryOf af = Category.Collection t s →
       takeUnwrap (interpInitList α (getBuilderInitializer af)) =
         Except.ok (([] : List α), none)) := by
  refine ⟨?_, ?_, fun t _ => rfl, ?_⟩
  · intro t s hc
    obtain ⟨-, hset, -, -, -, -⟩ := categoryCollectionInv f af t s hf hc
    simp [getBuilderInitializer, hset]
  · intro hc
    obtain ⟨-, hset, -, -⟩ := categoryRequiredInv f af hf hc
    simp [getBuilderInitializer, hset]
  · intro α t s hc
    obtain ⟨-, hset, -, -, -, -⟩ := categoryCollectionInv f af t s hf hc
    have hi : getBuilderInitializer af = InitFrag.someEmptyVec := by
      simp [getBuilderInitializer, hset]
    rw [hi]
    rfl

/-- Claim C6, witness: the amended theorem applied to the Collection
field `args` and the Required field `executable`. -/
theorem c6Witness :
    annotatedFieldFrom fdArg = Except.ok afArg ∧
    getBuilderInitializer afArg = InitFrag.someEmptyVec ∧
    getBuilderInitializer afExec = InitFrag.noneInit :=
  ⟨rfl, (c6Amended fdArg afArg rfl).1 tyString "arg" rfl,
    (c6Amended fdExec afExec rfl).2.1 rfl⟩

/-!
Claim C7.  Collection fields get both the named element setter and, when
the element-setter name differs from the field name, a bulk setter under
the field name taking the full declared type; when the names coincide the
bulk setter is suppressed.  Confirmed.
-/

/-- Claim C7: a Collection field's emitted setters are the element setter
alone when its name equals the field name, and the element setter
followed by a bulk setter of the full declared type otherwise. -/
theorem c7CollectionSetters (f : FieldDesc) (af : AnnotatedField) (t : Ty) (s : String)
    (hf : annotatedFieldFrom f = Except.ok af)
    (hc : categoryOf af = Category.Collection t s) :
    getBuilderSetter af =
      Except.ok (if s = af.name then [SetterFrag.elemSetter s af.name t]
        else [SetterFrag.elemSetter s af.name t,
              SetterFrag.requiredSetter af.name af.name af.ty]) := by
  obtain ⟨hio, hset, hin, hpar, -, -⟩ := categoryCollectionInv f af t s hf hc
  by_cases hname : s = af.name <;>
    simp [getBuilderSetter, hpar, hset, hin, hio, hname]

/-- Claim C7, witness: the theorem applied to `args` (element setter
`arg`, distinct from the field name, so the bulk setter appears) and to
`env` (element setter `env`, equal to the field name, so it does not). -/
theorem c7Witness :
    annotatedFieldFrom fdArg = Except.ok afArg ∧
    getBuilderSetter afArg =
      Except.ok (if "arg" = afArg.name then [SetterFrag.elemSetter "arg" afArg.name tyString]
        else [SetterFrag.elemSetter "arg" afArg.name tyString,
              SetterFrag.requiredSetter afArg.name afArg.name afArg.ty]) ∧
    getBuilderSetter afEnvSame =
      Except.ok (if "env" = afEnvSame.name then [SetterFrag.elemSetter "env" afEnvSame.name tyString]
        else [SetterFrag.elemSetter "env" afEnvSame.name tyString,
              SetterFrag.requiredSetter afEnvSame.name afEnvSame.name afEnvSame.ty]) :=
  ⟨rfl, c7CollectionSetters fdArg afArg tyString "arg" rfl rfl,
    c7CollectionSetters fdEnvSame afEnvSame tyString "env" rfl rfl⟩

/-!
Claim C8.  Calling a Collection field's element setter with v1..vn in
order and then `build()` yields exactly [v1..vn]; zero calls yield the
empty collection and `build()` still succeeds.  Confirmed.
-/

/-- Claim C8: for any Collection field, the emitted element setter is
among its setters, the slot starts as the empty vector, and running the
element setter once per value of `vs` followed by the build-time read
succeeds with exactly `vs` in call order (the empty `vs` covering the
never-called case). -/
theorem c8ElementSetterOrder (f : FieldDesc) (af : AnnotatedField) (t : Ty) (s : String)
    (hf : annotatedFieldFrom f = Except.ok af)
    (hc : categoryOf af = Category.Collection t s) :
    getBuilderInitializer af = InitFrag.someEmptyVec ∧
    (∃ l, getBuilderSetter af = Except.ok l ∧ SetterFrag.elemSetter s af.name t ∈ l) ∧
    getBuildInitializer af = BuildFrag.takeRead af.name ∧
    (∀ (α : Type) (vs : List α),
      buildAfterElemCalls vs (interpInitList α (getBuilderInitializer af)) =
        Except.ok (vs, none)) := by
  obtain ⟨hio, hset, hin, hpar, -, -⟩ := categoryCollectionInv f af t s hf hc
  have hinit : getBuilderInitializer af = InitFrag.someEmptyVec := by
    simp [getBuilderInitializer, hset]
  refine ⟨hinit, ?_, by simp [getBuildInitializer, hio], ?_⟩
  · refine ⟨_, c7CollectionSetters f af t s hf hc, ?_⟩
    by_cases hname : s = af.name <;> simp [hname]
  · intro α vs
    rw [hinit]
    unfold buildAfterElemCalls
    rw [show interpInitList α InitFrag.someEmptyVec = some [] from rfl,
        runElemCallsAppend vs []]
    simp [takeUnwrap]

/-- Claim C8, witness: the theorem applied to the field `args` with the
call sequence `["-l", "-a"]` and with the empty call sequence. -/
theorem c8Witness :
    annotatedFieldFrom fdArg = Except.ok afArg ∧
    buildAfterElemCalls ["-l", "-a"]
        (interpInitList String (getBuilderInitializer afArg)) =
      Except.ok (["-l", "-a"], none) ∧
    buildAfterElemCalls ([] : List String)
        (interpInitList String (getBuilderInitializer afArg)) =
      Except.ok ([], none) :=
  ⟨rfl, (c8ElementSetterOrder fdArg afArg tyString "arg" rfl rfl).2.2.2 String ["-l", "-a"],
    (c8ElementSetterOrder fdArg afArg tyString "arg" rfl rfl).2.2.2 String []⟩

/-!
Claim C9.  An Optional field's setter takes the inner type only; never
calling it builds "absent", calling it with v builds "present v", with
the has-been-set wrapping round-tripping exactly once.  Confirmed for
Optional fields with no `each` attribute and no pending diagnostic (an
Optional field carrying an `each` attribute or a diagnostic produces
output that does not compile, so no built value exists for it).
-/

/-- Claim C9: an Optional field's sole setter is the whole-field setter
taking the inner type (never the wrapped form); its slot starts `None`;
building without calling the setter yields the absent value, and building
after setting `v` yields exactly `present v` — single-wrapped, as the
result type `Option α` of the read shows. -/
theorem c9OptionalRoundtrip (f : FieldDesc) (af : AnnotatedField) (t : Ty)
    (hf : annotatedFieldFrom f = Except.ok af)
    (hc : categoryOf af = Category.Optional t)
    (heachless : af.one_by_one_setter = none)
    (hnodiag : af.parsed = none) :
    getBuilderSetter af = Except.ok [SetterFrag.optionalSetter af.name af.name t] ∧
    getBuilderInitializer af = InitFrag.noneInit ∧
    getBuildInitializer af = BuildFrag.optRead af.name ∧
    (∀ (α : Type) (v : α),
      (optionalRead (none : Option (Option α))).1 = none ∧
      (optionalRead (setOptional v (none : Option (Option α)))).1 = some v) := by
  obtain ⟨hio, hin, -⟩ := categoryOptionalInv f af t hf hc
  refine ⟨?_, ?_, ?_, fun α v => ⟨rfl, rfl⟩⟩
  · simp [getBuilderSetter, hnodiag, heachless, hio, hin]
  · simp [getBuilderInitializer, heachless]
  · simp [getBuildInitializer, hio]

/-- Claim C9, witness: the theorem applied to `current_dir: Option<u8>`
at value `3`. -/
theorem c9Witness :
    annotatedFieldFrom fdCurrentDir = Except.ok afCurrentDir ∧
    getBuilderSetter afCurrentDir =
      Except.ok [SetterFrag.optionalSetter afCurrentDir.name afCurrentDir.name tyU8] ∧
    (optionalRead (setOptional 3 (none : Option (Option Nat)))).1 = some 3 :=
  ⟨rfl, (c9OptionalRoundtrip fdCurrentDir afCurrentDir tyU8 rfl rfl rfl rfl).1,
    ((c9OptionalRoundtrip fdCurrentDir afCurrentDir tyU8 rfl rfl rfl rfl).2.2.2 Nat 3).2⟩

/-!
Claim C10.  The generated `build()` takes `&mut self` (embedded here as
slot-state passing) and moves each stored value out with `take()`, so a
successful build empties the Required and Collection slots and a second
`build()` on the same builder panics on the emptied slot instead of
succeeding with the same values.  Confirmed.
-/

/-- Claim C10: the build-time read for a non-optional field is the
`take().unwrap()` expression; reading a set slot moves the value out and
leaves the slot empty; reading the emptied slot again fails (panics), so
a second `build()` cannot succeed with the same values; the optional read
likewise empties a set slot. -/
theorem c10BuildMovesOut (af : AnnotatedField) (α : Type) (v : α) (w : Option α) :
    getBuildInitializer af =
      (if af.is_optional then BuildFrag.optRead af.name
       else BuildFrag.takeRead af.name) ∧
    takeUnwrap (setRequired v (none : Option α)) = Except.ok (v, none) ∧
    (match takeUnwrap (setRequired v (none : Option α)) with
     | .ok p => takeUnwrap p.2
     | .error e => .error e) = Except.error unwrapMsg ∧
    optionalRead (some w) = (w, none) :=
  ⟨rfl, rfl, rfl, rfl⟩

end DeriveBuilder
